import Mathlib

/-!
Verification of the ticker-backend ingestion pipeline.

Shallow embedding of the job/queue subsystem, the rate-limit gate, the
dividend store, the API-key gate and the `update-tickers` handler, translated
from:
  - src/unnamed/part_011  (job-manager: jobs, queue items, leasing, retry)
  - src/unnamed/part_001  (polygon-api: rate limiting, fetch outcomes)
  - src/unnamed/part_003  (supabase: storeDividendHistory)
  - src/api/process-queue.js  (worker tick, progress accounting, completion)
  - src/api/update-tickers.js (input validation, fast-path routing)
  - src/lib/cloudflare-queue.js (sendTickerToQueue)
  - src/sql/functions-only.sql (API-key auth middleware, embedded JS)
  - src/sql/enhanced-schema.sql (increment_rate_limit_counters)

Timestamps are natural numbers (milliseconds, or minute indices for the
rate-limit rows).  Database tables are lists of rows; store calls are assumed
reliable (the error channel of the store client is not modelled), and the
query built by getNextQueueItems is embedded with the column comparison
`retry_count < max_retries` that its builder chain denotes.
-/

namespace TickerBackend

/-! ## Data model -/

inductive JobStatus
  | pending
  | processing
  | completed
  | failed
  | cancelled
deriving DecidableEq, Repr

/-- A row of `api_jobs`.  The source keeps `force_update` inside the job's
`metadata` JSON; it is the only metadata field the worker reads. -/
structure Job where
  id : Nat
  status : JobStatus
  ticker_symbols : List String
  total_tickers : Nat
  processed_tickers : Nat
  failed_tickers : Nat
  priority : Int
  force_update : Bool
  error_message : Option String
  started_at : Option Nat
  completed_at : Option Nat
deriving DecidableEq, Repr

/-- A row of `job_queue`. -/
structure QueueItem where
  id : Nat
  job_id : Nat
  ticker_symbol : String
  priority : Int
  retry_count : Nat
  max_retries : Nat
  scheduled_at : Nat
  locked_at : Option Nat
  locked_by : Option String
  error_message : Option String
deriving DecidableEq, Repr

/-- The optional-field update object passed to `updateJobStatus` by its
various callers. -/
structure JobUpdates where
  processed_tickers : Option Nat
  failed_tickers : Option Nat
  completed_at : Option Nat
  error_message : Option String
  started_at : Option Nat
deriving DecidableEq, Repr

def noUpdates : JobUpdates :=
  { processed_tickers := none, failed_tickers := none, completed_at := none
    error_message := none, started_at := none }

/-- A dividend record in the API shape produced by `transformPolygonData`
(part_001) and consumed by `storeDividendHistory` (part_003).  The JS
falsiness test `!dividend.exDividendDate` treats a missing field and the
empty string alike; amounts are JS numbers, embedded as rationals. -/
structure ApiDividend where
  declarationDate : Option String
  recordDate : Option String
  exDividendDate : Option String
  payDate : Option String
  amount : Rat
  currency : Option String
  frequency : Option Nat
  divType : Option String
  polygonId : Option String
deriving DecidableEq, Repr

/-- A row of the `dividends` table (natural key: ticker, ex_dividend_date). -/
structure DividendRow where
  ticker : String
  declaration_date : Option String
  record_date : Option String
  ex_dividend_date : String
  pay_date : Option String
  amount : Rat
  currency : String
  frequency : Nat
  div_type : String
  polygon_id : Option String
  data_source : String
deriving DecidableEq, Repr

/-- The summary object returned by `storeDividendHistory`. -/
structure StoreSummary where
  inserted : Nat
  updated : Nat
  errors : Nat
  total : Nat
  validRecords : Nat
  errorMessages : List String
deriving DecidableEq, Repr

/-- Whole-system state: the tables the claims touch, plus fresh-id counters
standing in for the store's serial columns. -/
structure SysState where
  nextJobId : Nat
  nextItemId : Nat
  jobs : List Job
  queue : List QueueItem
  dividendsTable : List DividendRow
deriving DecidableEq, Repr

def initialState : SysState :=
  { nextJobId := 0, nextItemId := 0, jobs := [], queue := [], dividendsTable := [] }

/-! ## JS string builtins

The source leans on `String.prototype.toUpperCase()` and `trim()`; the inputs
here are ASCII ticker symbols, so they are modelled by the ASCII case map and
ASCII whitespace trimming. -/

def jsToUpperChar (c : Char) : Char :=
  if c.isLower then Char.ofNat (c.toNat - 32) else c

/-- `s.toUpperCase()` for ASCII input. -/
def jsToUpper (s : String) : String := String.mk (s.data.map jsToUpperChar)

def jsIsSpace (c : Char) : Bool := c = ' ' || c = '\t' || c = '\n' || c = '\r'

/-- `s.trim()` for ASCII whitespace. -/
def jsTrim (s : String) : String :=
  String.mk (((s.data.dropWhile jsIsSpace).reverse.dropWhile jsIsSpace).reverse)

/-- `s.startsWith(p)`. -/
def jsStartsWith (s p : String) : Bool := p.data.isPrefixOf s.data

/-! ## Job manager (src/unnamed/part_011) -/

/-- `getJobById`: single-row select on `api_jobs` by primary key. -/
def findJob (jobs : List Job) (jobId : Nat) : Option Job :=
  jobs.find? (fun j => decide (j.id = jobId))

/-- The row update performed by `updateJobStatus(jobId, status, updates)`:
`updateData = { status, ...updates }`, then `started_at := now` when moving to
`processing` without an explicit `started_at`, and `completed_at := now` on
`completed`/`failed`. -/
def applyStatusUpdate (now : Nat) (status : JobStatus) (u : JobUpdates) (j : Job) : Job :=
  let j1 : Job :=
    { j with
      status := status
      processed_tickers := u.processed_tickers.getD j.processed_tickers
      failed_tickers := u.failed_tickers.getD j.failed_tickers
      completed_at := match u.completed_at with | none => j.completed_at | some t => some t
      error_message := match u.error_message with | none => j.error_message | some e => some e
      started_at := match u.started_at with | none => j.started_at | some t => some t }
  let j2 := if status = JobStatus.processing ∧ u.started_at = none then
    { j1 with started_at := some now } else j1
  if status = JobStatus.completed ∨ status = JobStatus.failed then
    { j2 with completed_at := some now } else j2

/-- The effect of `updateJobStatus`'s `.update(updateData).eq('id', jobId)` on
one row. -/
def statusUpdateRow (now : Nat) (jobId : Nat) (status : JobStatus) (u : JobUpdates)
    (j : Job) : Job :=
  if j.id = jobId then applyStatusUpdate now status u j else j

def updateJobStatus (now : Nat) (jobId : Nat) (status : JobStatus) (u : JobUpdates)
    (jobs : List Job) : List Job :=
  jobs.map (statusUpdateRow now jobId status u)

/-- `createDividendUpdateJob`: inserts a pending job with
`total_tickers = tickers.length` and zeroed progress counters; returns the new
job id. -/
def createDividendUpdateJob (tickers : List String) (priority : Int) (force : Bool)
    (st : SysState) : SysState × Nat :=
  let jobId := st.nextJobId
  let job : Job :=
    { id := jobId
      status := JobStatus.pending
      ticker_symbols := tickers.map jsToUpper
      total_tickers := tickers.length
      processed_tickers := 0
      failed_tickers := 0
      priority := priority
      force_update := force
      error_message := none
      started_at := none
      completed_at := none }
  ({ st with nextJobId := jobId + 1, jobs := st.jobs ++ [job] }, jobId)

/-- `addTickersToQueue`: one queue item per symbol, `retry_count = 0`,
`max_retries = 3`, scheduled immediately. -/
def addTickersToQueue (now : Nat) (jobId : Nat) (tickers : List String) (priority : Int)
    (st : SysState) : SysState :=
  let items := tickers.enum.map (fun p =>
    { id := st.nextItemId + p.1
      job_id := jobId
      ticker_symbol := jsToUpper p.2
      priority := priority
      retry_count := 0
      max_retries := 3
      scheduled_at := now
      locked_at := none
      locked_by := none
      error_message := none : QueueItem })
  { st with nextItemId := st.nextItemId + tickers.length, queue := st.queue ++ items }

/-- The job-creation path of the update-tickers handler (steps 3b):
`createDividendUpdateJob` followed by `addTickersToQueue`; the handler only
takes this path when the ticker list is non-empty. -/
def createJobAndEnqueue (now : Nat) (tickers : List String) (priority : Int) (force : Bool)
    (st : SysState) : SysState :=
  let r := createDividendUpdateJob tickers priority force st
  addTickersToQueue now r.2 tickers priority r.1

def lockTimeoutMs : Nat := 5 * 60 * 1000

/-- Visibility filter of the select in `getNextQueueItems`: lock free or lease
expired, due, owning job `pending` (the `api_jobs!inner ... .eq('api_jobs.status',
'pending')` join filter), and `retry_count < max_retries`. -/
def queueItemVisible (now : Nat) (jobs : List Job) (it : QueueItem) : Bool :=
  (match it.locked_at with
   | none => true
   | some t => decide (t < now - lockTimeoutMs))
  && decide (it.scheduled_at ≤ now)
  && (match findJob jobs it.job_id with
      | some j => decide (j.status = JobStatus.pending)
      | none => false)
  && decide (it.retry_count < it.max_retries)

/-- `ORDER BY priority DESC, scheduled_at ASC`. -/
def leaseOrder (a b : QueueItem) : Bool :=
  decide (b.priority < a.priority)
    || (decide (a.priority = b.priority) && decide (a.scheduled_at ≤ b.scheduled_at))

def insertByLease (x : QueueItem) : List QueueItem → List QueueItem
  | [] => [x]
  | y :: ys => if leaseOrder x y then x :: y :: ys else y :: insertByLease x ys

def sortByLease : List QueueItem → List QueueItem
  | [] => []
  | x :: xs => insertByLease x (sortByLease xs)

/-- `getNextQueueItems(limit, workerId)`: select visible items ordered by
priority/schedule, take `limit`, stamp `locked_at/locked_by` on the selected
rows.  Returns the selected records (as read, pre-lock) and the new state. -/
def getNextQueueItems (now : Nat) (limit : Nat) (workerId : String)
    (st : SysState) : List QueueItem × SysState :=
  let visible := st.queue.filter (queueItemVisible now st.jobs)
  let data := (sortByLease visible).take limit
  if data.isEmpty then ([], st)
  else
    let ids := data.map (fun it => it.id)
    let newQueue := st.queue.map (fun it =>
      if ids.contains it.id then
        { it with locked_at := some now, locked_by := some workerId }
      else it)
    (data, { st with queue := newQueue })

/-- `completeQueueItem`: delete the row. -/
def completeQueueItem (itemId : Nat) (queue : List QueueItem) : List QueueItem :=
  queue.filter (fun it => decide (it.id ≠ itemId))

/-- The per-row decision of `failQueueItem`: when
`retry_count >= max_retries - 1` the item is deleted (`none`); otherwise the
retry count is incremented, the error stored, the item rescheduled at
`now + 2^retry_count minutes` and the lock cleared. -/
def failQueueItem (now : Nat) (errorMessage : String) (item : QueueItem) : Option QueueItem :=
  if item.max_retries - 1 ≤ item.retry_count then
    none
  else
    some { item with
      retry_count := item.retry_count + 1
      error_message := some errorMessage
      scheduled_at := now + 2 ^ item.retry_count * 60000
      locked_at := none
      locked_by := none }

/-- Iterated failure of one item: the outcome after `k` consecutive
`failQueueItem` calls (the item's whole retry lifecycle under permanent
upstream failure). -/
def iterFailQueueItem (now : Nat) (err : String) : Nat → QueueItem → Option QueueItem
  | 0, item => some item
  | k + 1, item =>
    match failQueueItem now err item with
    | none => none
    | some item' => iterFailQueueItem now err k item'

/-- `failQueueItem` acting on the `job_queue` table: read the row, then delete
or update it. -/
def failQueueItemInQueue (now : Nat) (errorMessage : String) (itemId : Nat)
    (queue : List QueueItem) : List QueueItem :=
  match queue.find? (fun it => decide (it.id = itemId)) with
  | none => queue
  | some item =>
    match failQueueItem now errorMessage item with
    | none => queue.filter (fun it => decide (it.id ≠ itemId))
    | some item' => queue.map (fun it => if it.id = itemId then item' else it)

/-! ## Rate budget (src/unnamed/part_001 and src/sql/enhanced-schema.sql) -/

def RATE_LIMIT_PER_MINUTE : Nat := 5

/-- A row of `rate_limits`; `reset_*` fields hold truncated boundaries
(minute/hour/day indices). -/
structure RateLimitRow where
  calls_this_minute : Nat
  calls_this_hour : Nat
  calls_today : Nat
  reset_minute : Nat
  reset_hour : Nat
  reset_day : Nat
deriving DecidableEq, Repr

/-- `checkRateLimit` (polygon-api): if the wall clock crossed the minute
boundary, reset the minute counter to 0, move the boundary, and allow; else
deny iff the counter is at the limit.  It performs no increment. -/
def checkRateLimit (currentMinute : Nat) (row : RateLimitRow) : Bool × RateLimitRow :=
  if row.reset_minute < currentMinute then
    (true, { row with calls_this_minute := 0, reset_minute := currentMinute })
  else if RATE_LIMIT_PER_MINUTE ≤ row.calls_this_minute then
    (false, row)
  else
    (true, row)

/-- The stored procedure `increment_rate_limit_counters` invoked by
`recordApiCall` after every call attempt: each counter resets to 1 on a
boundary crossing, else increments. -/
def incrementRateLimitCounters (currentMinute currentHour currentDay : Nat)
    (row : RateLimitRow) : RateLimitRow :=
  { calls_this_minute :=
      if row.reset_minute < currentMinute then 1 else row.calls_this_minute + 1
    calls_this_hour :=
      if row.reset_hour < currentHour then 1 else row.calls_this_hour + 1
    calls_today :=
      if row.reset_day < currentDay then 1 else row.calls_today + 1
    reset_minute :=
      if row.reset_minute < currentMinute then currentMinute else row.reset_minute
    reset_hour :=
      if row.reset_hour < currentHour then currentHour else row.reset_hour
    reset_day :=
      if row.reset_day < currentDay then currentDay else row.reset_day }

/-! ## Dividend store (src/unnamed/part_003) -/

/-- JS falsiness of an optional string field (`undefined`/`null`/`""`). -/
def jsFalsyStr (o : Option String) : Bool :=
  match o with
  | none => true
  | some s => decide (s = "")

/-- `value || default` on an optional string field. -/
def jsOrStr (o : Option String) (d : String) : String :=
  match o with
  | none => d
  | some s => if s = "" then d else s

/-- `value || default` on an optional numeric field (0 is falsy). -/
def jsOrNat (o : Option Nat) (d : Nat) : Nat :=
  match o with
  | none => d
  | some n => if n = 0 then d else n

/-- A record is skipped by `storeDividendHistory` when its ex-dividend date is
falsy or its amount is falsy/non-positive. -/
def dividendInvalid (d : ApiDividend) : Bool :=
  jsFalsyStr d.exDividendDate || decide (d.amount ≤ 0)

/-- The per-record validation/transformation loop body of
`storeDividendHistory`: an error message for an invalid record, else the
`dividends` row with the source's explicit defaults. -/
def validateDividend (tickerUpper : String) (d : ApiDividend) : Except String DividendRow :=
  if jsFalsyStr d.exDividendDate then
    Except.error ("Missing ex-dividend date for " ++ tickerUpper)
  else if d.amount ≤ 0 then
    Except.error ("Invalid dividend amount for " ++ tickerUpper)
  else
    Except.ok
      { ticker := tickerUpper
        declaration_date := d.declarationDate
        record_date := d.recordDate
        ex_dividend_date := d.exDividendDate.getD ""
        pay_date := d.payDate
        amount := d.amount
        currency := jsOrStr d.currency "USD"
        frequency := jsOrNat d.frequency 4
        div_type := jsOrStr d.divType "Cash"
        polygon_id := d.polygonId
        data_source := "polygon" }

/-- One record of the bulk upsert with `onConflict: 'ticker,ex_dividend_date'`:
replace the row with the same natural key, else append. -/
def upsertOneDividend (table : List DividendRow) (r : DividendRow) : List DividendRow :=
  if table.any (fun row =>
      decide (row.ticker = r.ticker) && decide (row.ex_dividend_date = r.ex_dividend_date)) then
    table.map (fun row =>
      if row.ticker = r.ticker ∧ row.ex_dividend_date = r.ex_dividend_date then r else row)
  else
    table ++ [r]

def upsertDividendRows (table : List DividendRow) (records : List DividendRow) : List DividendRow :=
  records.foldl upsertOneDividend table

/-- `storeDividendHistory(ticker, dividends)`: empty input returns a zero
summary; otherwise records are validated one by one, invalid ones collected as
messages, and if no record survives the function throws; else the survivors go
to the store in one bulk upsert and a summary is returned (`inserted` comes
from the store's exact row count, i.e. the number of upserted records). -/
def storeDividendHistory (table : List DividendRow) (ticker : String)
    (dividends : List ApiDividend) : Except String (List DividendRow × StoreSummary) :=
  if dividends.isEmpty then
    Except.ok (table, { inserted := 0, updated := 0, errors := 0, total := 0,
                        validRecords := 0, errorMessages := [] })
  else
    let tickerUpper := jsToUpper ticker
    let results := dividends.map (validateDividend tickerUpper)
    let validRecords := results.filterMap Except.toOption
    let errors := results.filterMap (fun r =>
      match r with
      | Except.error e => some e
      | Except.ok _ => none)
    if validRecords.isEmpty then
      Except.error ("No valid dividend records to store for " ++ tickerUpper)
    else
      Except.ok (upsertDividendRows table validRecords,
        { inserted := validRecords.length
          updated := 0
          errors := errors.length
          total := dividends.length
          validRecords := validRecords.length
          errorMessages := errors })

/-- At most one `dividends` row per (ticker, ex_dividend_date). -/
def DividendKeysUnique (table : List DividendRow) : Prop :=
  table.Pairwise (fun a b => a.ticker ≠ b.ticker ∨ a.ex_dividend_date ≠ b.ex_dividend_date)

/-! ## Worker tick (src/api/process-queue.js) -/

/-- Outcome of the upstream fetch for one item, as seen by the worker:
`fetchPolygonDividends` either returns the transformed records, or throws the
rate-limit error produced when `checkRateLimit` denies the call, or throws an
HTTP/transport error. -/
inductive FetchOutcome
  | success (records : List ApiDividend)
  | rateLimited
  | httpError (msg : String)
deriving DecidableEq, Repr

/-- Per-item environment: the answer `needsDividendUpdate` would give, and the
fetch outcome. -/
structure ItemEnv where
  needsUpdate : Bool
  fetch : FetchOutcome
deriving DecidableEq, Repr

inductive ItemResult
  | processedOk
  | failedR
  | skippedR
deriving DecidableEq, Repr

def rateLimitErrorMessage : String :=
  "Rate limit exceeded for Polygon API. Maximum 5 calls per minute."

/-- `updateJobProgress(jobId, completedIncrement, failedIncrement)`: read the
job, write back absolute counters through `updateJobStatus` keeping the
current status. -/
def updateJobProgress (now : Nat) (jobId : Nat) (completedIncrement failedIncrement : Nat)
    (jobs : List Job) : List Job :=
  match findJob jobs jobId with
  | none => jobs
  | some job =>
    let u : JobUpdates :=
      { processed_tickers := some (job.processed_tickers + completedIncrement)
        failed_tickers := some (job.failed_tickers + failedIncrement)
        completed_at := none, error_message := none, started_at := none }
    updateJobStatus now jobId job.status u jobs

/-- The catch block of the worker's per-item loop: `failQueueItem(item.id, msg)`
then `updateJobProgress(item.job_id, 0, 1)`. -/
def failItemAndCount (now : Nat) (msg : String) (item : QueueItem) (st : SysState) :
    SysState × ItemResult :=
  let q := failQueueItemInQueue now msg item.id st.queue
  let js := updateJobProgress now item.job_id 0 1 st.jobs
  ({ st with queue := q, jobs := js }, ItemResult.failedR)

/-- The body of the worker's per-item loop (process-queue.js lines 80-170):
load the owning job; if its status is not `pending`, delete the item and skip
with no progress mutation; else move the job to `processing`, consult the
freshness check unless forced, fetch, store, and account progress; any thrown
error lands in the catch block above. -/
def processQueueItem (now : Nat) (env : ItemEnv) (item : QueueItem) (st : SysState) :
    SysState × ItemResult :=
  match findJob st.jobs item.job_id with
  | none => failItemAndCount now "Failed to get job" item st
  | some job =>
    if job.status ≠ JobStatus.pending then
      ({ st with queue := completeQueueItem item.id st.queue }, ItemResult.skippedR)
    else
      let st1 := { st with jobs := updateJobStatus now item.job_id JobStatus.processing noUpdates st.jobs }
      if !job.force_update && !env.needsUpdate then
        let st2 := { st1 with queue := completeQueueItem item.id st1.queue }
        ({ st2 with jobs := updateJobProgress now item.job_id 1 0 st2.jobs }, ItemResult.skippedR)
      else
        match env.fetch with
        | FetchOutcome.rateLimited => failItemAndCount now rateLimitErrorMessage item st1
        | FetchOutcome.httpError msg => failItemAndCount now msg item st1
        | FetchOutcome.success records =>
          if records.isEmpty then
            let st2 := { st1 with queue := completeQueueItem item.id st1.queue }
            ({ st2 with jobs := updateJobProgress now item.job_id 1 0 st2.jobs }, ItemResult.processedOk)
          else
            match storeDividendHistory st1.dividendsTable item.ticker_symbol records with
            | Except.error msg => failItemAndCount now msg item st1
            | Except.ok r =>
              let st2 := { st1 with dividendsTable := r.1, queue := completeQueueItem item.id st1.queue }
              ({ st2 with jobs := updateJobProgress now item.job_id 1 0 st2.jobs }, ItemResult.processedOk)

/-- The worker's per-batch loop: the items returned by `getNextQueueItems`
are processed in order, each with its own environment; the loop has no early
exit (the catch block ends an iteration, not the loop). -/
def processBatch (now : Nat) (batch : List (QueueItem × ItemEnv)) (st : SysState) : SysState :=
  batch.foldl (fun s p => (processQueueItem now p.2 p.1 s).1) st

/-- Loop body of `checkAndCompleteJobs`: when a job's queue has drained, mark
it `failed` iff it has failures and zero processed tickers, else `completed`,
stamping `completed_at`. -/
def completeDrainedJob (now : Nat) (jobId : Nat) (st : SysState) : SysState :=
  if (st.queue.filter (fun it => decide (it.job_id = jobId))).length = 0 then
    match findJob st.jobs jobId with
    | none => st
    | some job =>
      let finalStatus :=
        if 0 < job.failed_tickers ∧ job.processed_tickers = 0 then JobStatus.failed
        else JobStatus.completed
      let u : JobUpdates :=
        { processed_tickers := none, failed_tickers := none, completed_at := some now
          error_message := none, started_at := none }
      { st with jobs := updateJobStatus now jobId finalStatus u st.jobs }
  else st

/-- `checkAndCompleteJobs(jobIds)`: dedup and run the check per job. -/
def checkAndCompleteJobs (now : Nat) (jobIds : List Nat) (st : SysState) : SysState :=
  jobIds.eraseDups.foldl (fun s jid => completeDrainedJob now jid s) st

/-- `DELETE /jobs?jobId=` (jobs endpoint): cancellable only while `pending`;
sets `cancelled` with an error message and `completed_at`, then deletes the
job's queue items.  Returns whether the cancellation was accepted. -/
def cancelJob (now : Nat) (jobId : Nat) (st : SysState) : SysState × Bool :=
  match findJob st.jobs jobId with
  | none => (st, false)
  | some job =>
    if job.status ≠ JobStatus.pending then (st, false)
    else
      let u : JobUpdates :=
        { processed_tickers := none, failed_tickers := none, completed_at := some now
          error_message := some "Job cancelled by user", started_at := none }
      let jobs1 := updateJobStatus now jobId JobStatus.cancelled u st.jobs
      let queue1 := st.queue.filter (fun it => decide (it.job_id ≠ jobId))
      ({ st with jobs := jobs1, queue := queue1 }, true)

/-- States the system can reach: job creation with enqueue (the handler only
creates jobs for non-empty ticker lists), leasing, the per-item worker step
run on a record standing for a leased row (its `job_id` names a queued item's
job), end-of-batch completion, and cancellation.  A worker tick is a
composition of these steps. -/
inductive Reachable : SysState → Prop
  | init : Reachable initialState
  | createJob (st : SysState) (now : Nat) (tickers : List String) (priority : Int)
      (force : Bool) (hr : Reachable st) (hne : tickers ≠ []) :
      Reachable (createJobAndEnqueue now tickers priority force st)
  | lease (st : SysState) (now limit : Nat) (workerId : String) (hr : Reachable st) :
      Reachable (getNextQueueItems now limit workerId st).2
  | processItem (st : SysState) (now : Nat) (env : ItemEnv) (item : QueueItem)
      (hr : Reachable st) (hq : ∃ it ∈ st.queue, it.job_id = item.job_id) :
      Reachable (processQueueItem now env item st).1
  | completeJobs (st : SysState) (now : Nat) (jobIds : List Nat) (hr : Reachable st) :
      Reachable (checkAndCompleteJobs now jobIds st)
  | cancel (st : SysState) (now jobId : Nat) (hr : Reachable st) :
      Reachable (cancelJob now jobId st).1

/-- A job that is still `pending` has never had a counter advanced (counters
are only advanced after the worker moves the job to `processing`). -/
def PendingZero (jobs : List Job) : Prop :=
  ∀ j ∈ jobs, j.status = JobStatus.pending →
    j.processed_tickers = 0 ∧ j.failed_tickers = 0

/-- The claimed accounting bound, per job. -/
def CountersBounded (jobs : List Job) : Prop :=
  ∀ j ∈ jobs, j.processed_tickers + j.failed_tickers ≤ j.total_tickers

/-- The accounting invariant used to prove `processed + failed ≤ total`:
job ids are distinct and below the fresh-id counter, pending jobs have zero
counters, counters are bounded by the total, and every queued item's job has a
positive total. -/
def Inv (st : SysState) : Prop :=
  st.jobs.Pairwise (fun a b => a.id ≠ b.id) ∧
  (∀ j ∈ st.jobs, j.id < st.nextJobId) ∧
  (∀ it ∈ st.queue, it.job_id < st.nextJobId) ∧
  PendingZero st.jobs ∧
  CountersBounded st.jobs ∧
  (∀ it ∈ st.queue, ∀ j ∈ st.jobs, j.id = it.job_id → 1 ≤ j.total_tickers)

/-- Relation between two job tables that agree on ids and totals row-wise
(every row of the second comes from a row of the first with the same id and
total); all worker-side job updates have this shape. -/
def JobsShape (jobs jobs' : List Job) : Prop :=
  ∀ j' ∈ jobs', ∃ j ∈ jobs, j'.id = j.id ∧ j'.total_tickers = j.total_tickers

/-! ## API-key gate (embedded JS in src/sql/functions-only.sql) -/

structure ApiKeyData where
  name : String
  rateLimit : Nat
  isActive : Bool
deriving DecidableEq, Repr

/-- The in-memory key store `API_KEYS` of the auth middleware. -/
def API_KEYS : List (String × ApiKeyData) :=
  [("tk_demo_key_12345", { name := "Demo Key", rateLimit := 100, isActive := true }),
   ("tk_test_67890", { name := "Test Key", rateLimit := 50, isActive := true })]

/-- `isValidApiKeyFormat`: a string starting with `tk_` of length at least 35. -/
def isValidApiKeyFormat (key : String) : Bool :=
  jsStartsWith key "tk_" && decide (35 ≤ key.length)

/-- The API-key format stated by the specification: `tk_[A-Za-z0-9_]{6,}`
(written from the spec's words, to compare against `isValidApiKeyFormat`). -/
def specApiKeyFormat (key : String) : Bool :=
  jsStartsWith key "tk_" && decide (6 ≤ (key.data.drop 3).length)
    && (key.data.drop 3).all (fun c => c.isAlphanum || c = '_')

inductive KeyValidation
  | valid (keyData : ApiKeyData)
  | invalid (error : String)
deriving DecidableEq, Repr

/-- `validateApiKey`: format check, then lookup, then active check. -/
def validateApiKey (apiKey : String) : KeyValidation :=
  if !isValidApiKeyFormat apiKey then KeyValidation.invalid "Invalid API key format"
  else
    match API_KEYS.lookup apiKey with
    | none => KeyValidation.invalid "API key not found"
    | some keyData =>
      if !keyData.isActive then KeyValidation.invalid "API key is inactive"
      else KeyValidation.valid keyData

inductive GateResponse
  | unauthorized (message : String)
  | authorized (keyData : ApiKeyData)
deriving DecidableEq, Repr

/-- The authentication part of the `requireApiKey` middleware: missing key or
failed validation yields a 401 response. -/
def requireApiKeyAuth (apiKey : Option String) : GateResponse :=
  match apiKey with
  | none => GateResponse.unauthorized "API key required"
  | some k =>
    match validateApiKey k with
    | KeyValidation.invalid e => GateResponse.unauthorized e
    | KeyValidation.valid keyData => GateResponse.authorized keyData

/-! ## update-tickers validation and fast-path dispatch
(src/api/update-tickers.js, src/lib/cloudflare-queue.js) -/

/-- A JSON array element of the request's `tickers` field: a string or any
non-string value. -/
inductive ReqElem
  | str (s : String)
  | nonString
deriving DecidableEq, Repr

/-- The body's `tickers` field as the handler sees it. -/
inductive TickersField
  | missing
  | notArray
  | arr (elems : List ReqElem)
deriving DecidableEq, Repr

/-- One element's validity test: a string whose trimmed, upper-cased form has
length 1-10 and matches `/^[A-Z]+$/`. -/
def isValidTickerElem : ReqElem → Bool
  | ReqElem.str s =>
    let cleanTicker := jsToUpper (jsTrim s)
    decide (1 ≤ cleanTicker.length) && decide (cleanTicker.length ≤ 10)
      && cleanTicker.toList.all Char.isUpper
  | ReqElem.nonString => false

/-- The filtered `validTickers` (the original strings, as in the source; the
upper-casing happens later, inside the store calls). -/
def validTickersOf (elems : List ReqElem) : List String :=
  (elems.filter isValidTickerElem).filterMap (fun e =>
    match e with
    | ReqElem.str s => some s
    | ReqElem.nonString => none)

inductive ValidationOutcome
  | badRequest (error : String)
  | proceed (validTickers : List String)
deriving DecidableEq, Repr

/-- The validation prefix of the update-tickers handler, in source order:
missing/non-array/empty field, then the filter, then the zero-valid check,
then the >100 check on the filtered list. -/
def validateUpdateTickersRequest (body : TickersField) : ValidationOutcome :=
  match body with
  | TickersField.missing =>
    ValidationOutcome.badRequest "Invalid request. Provide an array of ticker symbols."
  | TickersField.notArray =>
    ValidationOutcome.badRequest "Invalid request. Provide an array of ticker symbols."
  | TickersField.arr elems =>
    if elems.length = 0 then
      ValidationOutcome.badRequest "Invalid request. Provide an array of ticker symbols."
    else
      let validTickers := validTickersOf elems
      if validTickers.length = 0 then
        ValidationOutcome.badRequest "No valid ticker symbols provided. Tickers must be 1-10 letter strings."
      else if 100 < validTickers.length then
        ValidationOutcome.badRequest "Too many tickers. Maximum 100 tickers per request."
      else
        ValidationOutcome.proceed validTickers

/-- Environment configuration relevant to the fast-path sink. -/
structure EnvConfig where
  cloudflareWorkerQueueUrl : Option String
deriving DecidableEq, Repr

def noUrlConfiguredMessage : String :=
  "No Cloudflare worker URLs configured. Set CLOUDFLARE_WORKER_QUEUE_URL environment variable."

/-- `sendTickerToQueue`: `POSSIBLE_URLS = [env].filter(Boolean)`; when empty the
function throws (outside its try/catch); otherwise the try/catch turns the
dispatch outcome into `true`/`false` (`dispatchOk` abstracts whether some URL
accepted the message). -/
def sendTickerToQueue (cfg : EnvConfig) (dispatchOk : Bool) : Except String Bool :=
  let possibleUrls : List String :=
    match cfg.cloudflareWorkerQueueUrl with
    | none => []
    | some u => if u = "" then [] else [u]
  if possibleUrls.isEmpty then Except.error noUrlConfiguredMessage
  else Except.ok dispatchOk

/-- Outcome of the handler's dispatch section (steps 3a/3b): the HTTP status,
the final standard-lane ticker list, and whether a job / the fast queue was
used.  A thrown `sendTickerToQueue` error reaches the handler's catch and
produces a 500. -/
structure DispatchResult where
  httpStatus : Nat
  standardTickers : List String
  jobCreated : Bool
  queueUsed : Bool
deriving DecidableEq, Repr

def updateTickersDispatch (cfg : EnvConfig) (dispatchOk : Bool)
    (newTickers existingTickers : List String) : DispatchResult :=
  if newTickers.isEmpty then
    { httpStatus := 202, standardTickers := existingTickers
      jobCreated := !existingTickers.isEmpty, queueUsed := false }
  else
    match sendTickerToQueue cfg dispatchOk with
    | Except.error _ =>
      { httpStatus := 500, standardTickers := existingTickers
        jobCreated := false, queueUsed := false }
    | Except.ok false =>
      let ex := existingTickers ++ newTickers
      { httpStatus := 202, standardTickers := ex
        jobCreated := !ex.isEmpty, queueUsed := false }
    | Except.ok true =>
      { httpStatus := 202, standardTickers := existingTickers
        jobCreated := !existingTickers.isEmpty, queueUsed := true }

/-! ## Concrete scenarios used by the witnesses and counterexamples -/

/-- A freshly enqueued queue item of job 0. -/
def baseItem : QueueItem :=
  { id := 0, job_id := 0, ticker_symbol := "AAA", priority := 0, retry_count := 0
    max_retries := 3, scheduled_at := 1000, locked_at := none, locked_by := none
    error_message := none }

/-- An environment in which the ticker is stale and the upstream fetch
succeeds with zero records. -/
def envPlain : ItemEnv := { needsUpdate := true, fetch := FetchOutcome.success [] }

/-- An environment in which the upstream gate denies the call
(`fetchPolygonDividends` throws its rate-limit error). -/
def envRateLimited : ItemEnv := { needsUpdate := true, fetch := FetchOutcome.rateLimited }

/-- A job already in status `processing` (its first item was handled in an
earlier iteration or tick). -/
def jobProcessing : Job :=
  { id := 0, status := JobStatus.processing, ticker_symbols := ["AAA"]
    total_tickers := 1, processed_tickers := 0, failed_tickers := 0, priority := 0
    force_update := false, error_message := none, started_at := some 500
    completed_at := none }

/-- State for the C1 scenario: one leased-able item whose owning job is
`processing`. -/
def stC1 : SysState :=
  { nextJobId := 1, nextItemId := 1, jobs := [jobProcessing], queue := [baseItem]
    dividendsTable := [] }

/-- C2 scenario: a two-ticker job, both items handled in one batch, then the
end-of-batch completion check. -/
def stC2a : SysState := createJobAndEnqueue 1000 ["AAA", "BBB"] 0 false initialState

def itemC2b : QueueItem := { baseItem with id := 1, ticker_symbol := "BBB" }

def stC2b : SysState := (processQueueItem 2000 envPlain baseItem stC2a).1

def stC2c : SysState := (processQueueItem 2000 envPlain itemC2b stC2b).1

def stC2final : SysState := completeDrainedJob 3000 0 stC2c

/-- C5 scenario: a two-ticker job; the first item's fetch is rate limited,
the second item is handled next in the same batch. -/
def stC5 : SysState := createJobAndEnqueue 1000 ["CCC", "DDD"] 0 false initialState

def itemC5a : QueueItem := { baseItem with ticker_symbol := "CCC" }

def itemC5b : QueueItem := { baseItem with id := 1, ticker_symbol := "DDD" }

def stC5final : SysState :=
  processBatch 2000 [(itemC5a, envRateLimited), (itemC5b, envPlain)] stC5

/-- The job created by the C2 scenario's `createDividendUpdateJob`. -/
def jobC2w : Job :=
  { id := 0, status := JobStatus.pending, ticker_symbols := ["AAA", "BBB"]
    total_tickers := 2, processed_tickers := 0, failed_tickers := 0, priority := 0
    force_update := false, error_message := none, started_at := none
    completed_at := none }

/-- C5 witness scenario: a forced single-ticker job (force_update = true), so
the worker reaches the fetch unconditionally. -/
def stC5w : SysState := createJobAndEnqueue 1000 ["CCC"] 0 true initialState

def itemC5w : QueueItem := { baseItem with ticker_symbol := "CCC" }

/-- The job row of `stC5w`. -/
def jobC5w : Job :=
  { id := 0, status := JobStatus.pending, ticker_symbols := ["CCC"]
    total_tickers := 1, processed_tickers := 0, failed_tickers := 0, priority := 0
    force_update := true, error_message := none, started_at := none
    completed_at := none }

/-- A valid fetched dividend record (positive amount, ex-date present). -/
def divGood : ApiDividend :=
  { declarationDate := none, recordDate := none, exDividendDate := some "2024-05-10"
    payDate := none, amount := 1, currency := none, frequency := none
    divType := none, polygonId := none }

/-- An invalid fetched dividend record (amount 0). -/
def divBad : ApiDividend := { divGood with amount := 0 }

/-- The `dividends` row produced for `divGood` by `storeDividendHistory`. -/
def rowGood : DividendRow :=
  { ticker := "AAPL", declaration_date := none, record_date := none
    ex_dividend_date := "2024-05-10", pay_date := none, amount := 1
    currency := "USD", frequency := 4, div_type := "Cash", polygon_id := none
    data_source := "polygon" }

/-- The summary returned for the batch `[divGood, divBad]`. -/
def summaryC7w : StoreSummary :=
  { inserted := 1, updated := 0, errors := 1, total := 2, validRecords := 1
    errorMessages := ["Invalid dividend amount for AAPL"] }

/-- A request body with 101 supplied elements, of which exactly one is a
valid ticker string. -/
def elems101 : List ReqElem := ReqElem.str "AAPL" :: List.replicate 100 ReqElem.nonString

/-- C10 scenario: a drained job with zero processed and zero failed tickers
(all of its items were deleted by the skip path). -/
def jobAllSkipped : Job :=
  { jobProcessing with total_tickers := 2 }

def stC10 : SysState :=
  { nextJobId := 1, nextItemId := 2, jobs := [jobAllSkipped], queue := []
    dividendsTable := [] }

/-! ## Helper lemmas: job-row updates and lookups -/

theorem applyStatusUpdate_id (now : Nat) (status : JobStatus) (u : JobUpdates) (j : Job) :
    (applyStatusUpdate now status u j).id = j.id := by
  simp only [applyStatusUpdate]
  split <;> split <;> rfl

theorem applyStatusUpdate_total (now : Nat) (status : JobStatus) (u : JobUpdates) (j : Job) :
    (applyStatusUpdate now status u j).total_tickers = j.total_tickers := by
  simp only [applyStatusUpdate]
  split <;> split <;> rfl

theorem applyStatusUpdate_status (now : Nat) (status : JobStatus) (u : JobUpdates) (j : Job) :
    (applyStatusUpdate now status u j).status = status := by
  simp only [applyStatusUpdate]
  split <;> split <;> rfl

theorem applyStatusUpdate_processed (now : Nat) (status : JobStatus) (u : JobUpdates) (j : Job) :
    (applyStatusUpdate now status u j).processed_tickers =
      u.processed_tickers.getD j.processed_tickers := by
  simp only [applyStatusUpdate]
  split <;> split <;> rfl

theorem applyStatusUpdate_failed (now : Nat) (status : JobStatus) (u : JobUpdates) (j : Job) :
    (applyStatusUpdate now status u j).failed_tickers =
      u.failed_tickers.getD j.failed_tickers := by
  simp only [applyStatusUpdate]
  split <;> split <;> rfl

theorem statusUpdateRow_id (now jid : Nat) (s : JobStatus) (u : JobUpdates) (j : Job) :
    (statusUpdateRow now jid s u j).id = j.id := by
  simp only [statusUpdateRow]
  split
  · exact applyStatusUpdate_id now s u j
  · rfl

theorem statusUpdateRow_total (now jid : Nat) (s : JobStatus) (u : JobUpdates) (j : Job) :
    (statusUpdateRow now jid s u j).total_tickers = j.total_tickers := by
  simp only [statusUpdateRow]
  split
  · exact applyStatusUpdate_total now s u j
  · rfl

theorem statusUpdateRow_of_ne (now jid : Nat) (s : JobStatus) (u : JobUpdates) (j : Job)
    (h : ¬ j.id = jid) : statusUpdateRow now jid s u j = j := by
  simp [statusUpdateRow, h]

theorem statusUpdateRow_of_eq (now jid : Nat) (s : JobStatus) (u : JobUpdates) (j : Job)
    (h : j.id = jid) : statusUpdateRow now jid s u j = applyStatusUpdate now s u j := by
  simp [statusUpdateRow, h]

theorem findJob_mem {jobs : List Job} {jid : Nat} {j : Job}
    (h : findJob jobs jid = some j) : j ∈ jobs ∧ j.id = jid := by
  simp only [findJob] at h
  refine ⟨List.mem_of_find?_eq_some h, ?_⟩
  have hp := List.find?_some h
  simpa using hp

theorem findJob_of_mem {jobs : List Job} {jid : Nat} {j : Job}
    (hpw : jobs.Pairwise (fun a b => a.id ≠ b.id)) (hj : j ∈ jobs) (hid : j.id = jid) :
    findJob jobs jid = some j := by
  induction jobs with
  | nil => cases hj
  | cons a l ih =>
    rcases List.mem_cons.mp hj with h | h
    · subst h
      simp only [findJob]
      exact List.find?_cons_of_pos _ (by simpa using hid)
    · have hane : ¬ (a.id = jid) := by
        intro hEq
        exact ((List.pairwise_cons.mp hpw).1 j h) (hEq.trans hid.symm)
      simp only [findJob]
      rw [List.find?_cons_of_neg _ (by simpa using hane)]
      exact ih (List.pairwise_cons.mp hpw).2 h

theorem job_eq_of_id_eq {jobs : List Job}
    (hpw : jobs.Pairwise (fun a b => a.id ≠ b.id)) {a b : Job}
    (ha : a ∈ jobs) (hb : b ∈ jobs) (hid : a.id = b.id) : a = b := by
  by_contra hne
  exact (List.Pairwise.forall (fun _ _ h => Ne.symm h) hpw ha hb hne) hid

theorem pairwise_ids_updateJobStatus (now jid : Nat) (s : JobStatus) (u : JobUpdates)
    {jobs : List Job} (hpw : jobs.Pairwise (fun a b => a.id ≠ b.id)) :
    (updateJobStatus now jid s u jobs).Pairwise (fun a b => a.id ≠ b.id) := by
  simp only [updateJobStatus]
  rw [List.pairwise_map]
  exact hpw.imp (fun h => by simpa [statusUpdateRow_id] using h)

theorem jobsShape_refl (jobs : List Job) : JobsShape jobs jobs :=
  fun j hj => ⟨j, hj, rfl, rfl⟩

theorem jobsShape_updateJobStatus (now jid : Nat) (s : JobStatus) (u : JobUpdates)
    (jobs : List Job) : JobsShape jobs (updateJobStatus now jid s u jobs) := by
  intro j' hj'
  simp only [updateJobStatus, List.mem_map] at hj'
  obtain ⟨j, hj, rfl⟩ := hj'
  exact ⟨j, hj, statusUpdateRow_id now jid s u j, statusUpdateRow_total now jid s u j⟩

theorem jobsShape_updateJobProgress (now jid ci fi : Nat) (jobs : List Job) :
    JobsShape jobs (updateJobProgress now jid ci fi jobs) := by
  unfold updateJobProgress
  cases hf : findJob jobs jid with
  | none => exact jobsShape_refl jobs
  | some job => exact jobsShape_updateJobStatus now jid job.status _ jobs

/-! ## Helper lemmas: queue coverage -/

theorem mem_completeQueueItem {q : List QueueItem} {i : Nat} {it' : QueueItem}
    (h : it' ∈ completeQueueItem i q) : it' ∈ q :=
  (List.mem_filter.mp h).1

theorem failQueueItem_job_id {now : Nat} {msg : String} {item item' : QueueItem}
    (h : failQueueItem now msg item = some item') : item'.job_id = item.job_id := by
  simp only [failQueueItem] at h
  split at h
  · cases h
  · cases h
    rfl

theorem cover_failQueueItemInQueue {now : Nat} {msg : String} {i : Nat}
    {q : List QueueItem} {it' : QueueItem} (h : it' ∈ failQueueItemInQueue now msg i q) :
    ∃ it ∈ q, it'.job_id = it.job_id := by
  unfold failQueueItemInQueue at h
  split at h
  · exact ⟨it', h, rfl⟩
  · rename_i item hf
    split at h
    · exact ⟨it', (List.mem_filter.mp h).1, rfl⟩
    · rename_i item' hfail
      obtain ⟨it, hit, heq⟩ := List.mem_map.mp h
      by_cases hcase : it.id = i
      · rw [if_pos hcase] at heq
        have hmemItem : item ∈ q := List.mem_of_find?_eq_some hf
        refine ⟨item, hmemItem, ?_⟩
        rw [← heq]
        exact failQueueItem_job_id hfail
      · rw [if_neg hcase] at heq
        exact ⟨it, hit, by rw [← heq]⟩

theorem cover_leaseQueue {now limit : Nat} {wid : String} {st : SysState}
    {it' : QueueItem} (h : it' ∈ (getNextQueueItems now limit wid st).2.queue) :
    ∃ it ∈ st.queue, it'.job_id = it.job_id := by
  simp only [getNextQueueItems] at h
  split at h
  · exact ⟨it', h, rfl⟩
  · obtain ⟨it, hit, heq⟩ := List.mem_map.mp h
    refine ⟨it, hit, ?_⟩
    rw [← heq]
    split <;> rfl

theorem itemsPositive_transfer {q q' : List QueueItem} {jobs jobs' : List Job}
    (hcov : ∀ it' ∈ q', ∃ it ∈ q, it'.job_id = it.job_id)
    (hshape : JobsShape jobs jobs')
    (hpos : ∀ it ∈ q, ∀ j ∈ jobs, j.id = it.job_id → 1 ≤ j.total_tickers) :
    ∀ it' ∈ q', ∀ j' ∈ jobs', j'.id = it'.job_id → 1 ≤ j'.total_tickers := by
  intro it' hit' j' hj' hid
  obtain ⟨it, hit, hjid⟩ := hcov it' hit'
  obtain ⟨j, hj, hidj, htot⟩ := hshape j' hj'
  have := hpos it hit j hj (by rw [← hidj, hid, hjid])
  omega

theorem itemsBound_transfer {q q' : List QueueItem} {n : Nat}
    (hcov : ∀ it' ∈ q', ∃ it ∈ q, it'.job_id = it.job_id)
    (hb : ∀ it ∈ q, it.job_id < n) :
    ∀ it' ∈ q', it'.job_id < n := by
  intro it' hit'
  obtain ⟨it, hit, hjid⟩ := hcov it' hit'
  rw [hjid]
  exact hb it hit

theorem jobsShape_trans {a b c : List Job} (hab : JobsShape a b) (hbc : JobsShape b c) :
    JobsShape a c := by
  intro j' hj'
  obtain ⟨jb, hjb, hid1, ht1⟩ := hbc j' hj'
  obtain ⟨ja, hja, hid2, ht2⟩ := hab jb hjb
  exact ⟨ja, hja, hid1.trans hid2, ht1.trans ht2⟩

theorem jobsBound_of_shape {jobs jobs' : List Job} {n : Nat}
    (hshape : JobsShape jobs jobs') (hb : ∀ j ∈ jobs, j.id < n) :
    ∀ j' ∈ jobs', j'.id < n := by
  intro j' hj'
  obtain ⟨j, hj, hid, _⟩ := hshape j' hj'
  rw [hid]
  exact hb j hj

theorem pendingZero_updateJobStatus_nonpending (now jid : Nat) (s : JobStatus)
    (u : JobUpdates) {jobs : List Job} (hs : s ≠ JobStatus.pending)
    (hpz : PendingZero jobs) : PendingZero (updateJobStatus now jid s u jobs) := by
  intro j' hj' hst'
  simp only [updateJobStatus, List.mem_map] at hj'
  obtain ⟨j, hj, rfl⟩ := hj'
  by_cases hid : j.id = jid
  · rw [statusUpdateRow_of_eq now jid s u j hid] at hst' ⊢
    rw [applyStatusUpdate_status now s u j] at hst'
    exact absurd hst' hs
  · rw [statusUpdateRow_of_ne now jid s u j hid] at hst' ⊢
    exact hpz j hj hst'

theorem counters_updateJobStatus_none (now jid : Nat) (s : JobStatus) (u : JobUpdates)
    {jobs : List Job} (hup : u.processed_tickers = none) (huf : u.failed_tickers = none)
    (hcb : CountersBounded jobs) : CountersBounded (updateJobStatus now jid s u jobs) := by
  intro j' hj'
  simp only [updateJobStatus, List.mem_map] at hj'
  obtain ⟨j, hj, rfl⟩ := hj'
  by_cases hid : j.id = jid
  · rw [statusUpdateRow_of_eq now jid s u j hid]
    rw [applyStatusUpdate_processed, applyStatusUpdate_failed, applyStatusUpdate_total,
      hup, huf]
    exact hcb j hj
  · rw [statusUpdateRow_of_ne now jid s u j hid]
    exact hcb j hj

/-! ## Invariant preservation, per operation -/

theorem inv_createJobAndEnqueue (now : Nat) (tickers : List String) (p : Int) (f : Bool)
    {st : SysState} (hne : tickers ≠ []) (hInv : Inv st) :
    Inv (createJobAndEnqueue now tickers p f st) := by
  obtain ⟨hpw, hjb, hib, hpz, hcb, hpos⟩ := hInv
  have hlen : 1 ≤ tickers.length := List.length_pos.mpr hne
  simp only [createJobAndEnqueue, createDividendUpdateJob, addTickersToQueue, Inv,
    PendingZero, CountersBounded]
  have hitems : ∀ it ∈ (tickers.enum.map (fun q =>
      ({ id := st.nextItemId + q.1, job_id := st.nextJobId, ticker_symbol := jsToUpper q.2
         priority := p, retry_count := 0, max_retries := 3, scheduled_at := now
         locked_at := none, locked_by := none, error_message := none } : QueueItem))),
      it.job_id = st.nextJobId := by
    intro it hit
    obtain ⟨q, _, rfl⟩ := List.mem_map.mp hit
    rfl
  refine ⟨?_, ?_, ?_, ?_, ?_, ?_⟩
  · rw [List.pairwise_append]
    refine ⟨hpw, List.pairwise_singleton _ _, ?_⟩
    intro a ha b hb
    rw [List.mem_singleton] at hb
    subst hb
    have := hjb a ha
    dsimp only
    omega
  · intro j hj
    rcases List.mem_append.mp hj with h | h
    · have := hjb j h
      omega
    · rw [List.mem_singleton] at h
      subst h
      dsimp only
      omega
  · intro it hit
    rcases List.mem_append.mp hit with h | h
    · have := hib it h
      omega
    · have := hitems it h
      omega
  · intro j hj _
    rcases List.mem_append.mp hj with h | h
    · exact hpz j h (by assumption)
    · rw [List.mem_singleton] at h
      subst h
      exact ⟨rfl, rfl⟩
  · intro j hj
    rcases List.mem_append.mp hj with h | h
    · exact hcb j h
    · rw [List.mem_singleton] at h
      subst h
      simp
  · intro it hit j hj hid
    rcases List.mem_append.mp hit with hi | hi <;> rcases List.mem_append.mp hj with hk | hk
    · exact hpos it hi j hk hid
    · rw [List.mem_singleton] at hk
      subst hk
      have := hib it hi
      simp only at hid
      omega
    · have h1 := hitems it hi
      have h2 := hjb j hk
      rw [h1] at hid
      omega
    · rw [List.mem_singleton] at hk
      subst hk
      simpa using hlen

theorem leaseQueue_state_jobs (now limit : Nat) (wid : String) (st : SysState) :
    (getNextQueueItems now limit wid st).2.jobs = st.jobs := by
  simp only [getNextQueueItems]
  split <;> rfl

theorem leaseQueue_state_nextJobId (now limit : Nat) (wid : String) (st : SysState) :
    (getNextQueueItems now limit wid st).2.nextJobId = st.nextJobId := by
  simp only [getNextQueueItems]
  split <;> rfl

theorem counters_updateJobStatus_some (now jid : Nat) (s : JobStatus) (a b : Nat)
    {jobs : List Job} {j0 : Job}
    (hpw : jobs.Pairwise (fun x y => x.id ≠ y.id))
    (hmem : j0 ∈ jobs) (hid : j0.id = jid)
    (hbound : a + b ≤ j0.total_tickers)
    (hcb : CountersBounded jobs) :
    CountersBounded (updateJobStatus now jid s
      ({ processed_tickers := some a, failed_tickers := some b
         completed_at := none, error_message := none, started_at := none }) jobs) := by
  intro j' hj'
  simp only [updateJobStatus, List.mem_map] at hj'
  obtain ⟨j2, hj2, rfl⟩ := hj'
  by_cases hc : j2.id = jid
  · have hj2eq : j2 = j0 := job_eq_of_id_eq hpw hj2 hmem (hc.trans hid.symm)
    subst hj2eq
    rw [statusUpdateRow_of_eq now jid _ _ _ hc, applyStatusUpdate_processed,
      applyStatusUpdate_failed, applyStatusUpdate_total]
    simpa using hbound
  · rw [statusUpdateRow_of_ne now jid _ _ _ hc]
    exact hcb j2 hj2

/-- The shape shared by all three ways the per-item loop ends once it has
entered the `pending` branch: the job is moved to `processing` and exactly one
counter increment (or at most one) is applied, while the queue only loses or
rewrites rows. -/
theorem inv_pending_branch (now jid : Nat) {st : SysState} {job : Job}
    (hInv : Inv st)
    (hq : ∃ it ∈ st.queue, it.job_id = jid)
    (hfind : findJob st.jobs jid = some job)
    (hpending : job.status = JobStatus.pending)
    {q' : List QueueItem}
    (hcov : ∀ it' ∈ q', ∃ it ∈ st.queue, it'.job_id = it.job_id)
    (ci fi : Nat) (hsum : ci + fi ≤ 1) (d : List DividendRow) :
    Inv { nextJobId := st.nextJobId, nextItemId := st.nextItemId
          jobs := updateJobProgress now jid ci fi
            (updateJobStatus now jid JobStatus.processing noUpdates st.jobs)
          queue := q', dividendsTable := d } := by
  obtain ⟨hpw, hjb, hib, hpz, hcb, hpos⟩ := hInv
  obtain ⟨hjmem, hjid⟩ := findJob_mem hfind
  set jobs1 := updateJobStatus now jid JobStatus.processing noUpdates st.jobs with hjobs1
  have hpw1 : jobs1.Pairwise (fun a b => a.id ≠ b.id) :=
    pairwise_ids_updateJobStatus now jid _ _ hpw
  have hshape1 : JobsShape st.jobs jobs1 := jobsShape_updateJobStatus now jid _ _ st.jobs
  set job1 := applyStatusUpdate now JobStatus.processing noUpdates job with hjob1
  have hmem1 : job1 ∈ jobs1 := by
    rw [hjobs1]
    simp only [updateJobStatus]
    have hm := List.mem_map_of_mem (statusUpdateRow now jid JobStatus.processing noUpdates) hjmem
    rwa [statusUpdateRow_of_eq now jid _ _ job hjid] at hm
  have hid1 : job1.id = jid := by
    rw [hjob1, applyStatusUpdate_id]
    exact hjid
  have hfind1 : findJob jobs1 jid = some job1 := findJob_of_mem hpw1 hmem1 hid1
  have hzero := hpz job hjmem hpending
  have hp1 : job1.processed_tickers = 0 := by
    rw [hjob1, applyStatusUpdate_processed]
    simp [noUpdates, hzero.1]
  have hf1 : job1.failed_tickers = 0 := by
    rw [hjob1, applyStatusUpdate_failed]
    simp [noUpdates, hzero.2]
  have hs1 : job1.status = JobStatus.processing := by
    rw [hjob1, applyStatusUpdate_status]
  have ht1 : job1.total_tickers = job.total_tickers := by
    rw [hjob1, applyStatusUpdate_total]
  have htotpos : 1 ≤ job.total_tickers := by
    obtain ⟨it, hit, hitjid⟩ := hq
    exact hpos it hit job hjmem (hjid.trans hitjid.symm)
  have hpz1 : PendingZero jobs1 :=
    pendingZero_updateJobStatus_nonpending now jid _ _ (by decide) hpz
  have hcb1 : CountersBounded jobs1 :=
    counters_updateJobStatus_none now jid _ _ rfl rfl hcb
  have hprog : updateJobProgress now jid ci fi jobs1 =
      updateJobStatus now jid job1.status
        ({ processed_tickers := some (job1.processed_tickers + ci)
           failed_tickers := some (job1.failed_tickers + fi)
           completed_at := none, error_message := none, started_at := none }) jobs1 := by
    unfold updateJobProgress
    rw [hfind1]
  have hshape2 : JobsShape st.jobs (updateJobProgress now jid ci fi jobs1) :=
    jobsShape_trans hshape1 (jobsShape_updateJobProgress now jid ci fi jobs1)
  refine ⟨?_, ?_, ?_, ?_, ?_, ?_⟩
  · dsimp only
    rw [hprog]
    exact pairwise_ids_updateJobStatus now jid _ _ hpw1
  · dsimp only
    exact jobsBound_of_shape hshape2 hjb
  · dsimp only
    exact itemsBound_transfer hcov hib
  · dsimp only
    rw [hprog]
    refine pendingZero_updateJobStatus_nonpending now jid _ _ ?_ hpz1
    rw [hs1]
    decide
  · dsimp only
    rw [hprog]
    refine counters_updateJobStatus_some now jid job1.status _ _ hpw1 hmem1 hid1 ?_ hcb1
    rw [hp1, hf1, ht1]
    omega
  · dsimp only
    exact itemsPositive_transfer hcov hshape2 hpos

theorem inv_lease (now limit : Nat) (wid : String) {st : SysState} (hInv : Inv st) :
    Inv (getNextQueueItems now limit wid st).2 := by
  obtain ⟨hpw, hjb, hib, hpz, hcb, hpos⟩ := hInv
  refine ⟨?_, ?_, ?_, ?_, ?_, ?_⟩
  · rw [leaseQueue_state_jobs]
    exact hpw
  · rw [leaseQueue_state_jobs, leaseQueue_state_nextJobId]
    exact hjb
  · rw [leaseQueue_state_nextJobId]
    exact itemsBound_transfer (fun it' h => cover_leaseQueue h) hib
  · rw [leaseQueue_state_jobs]
    exact hpz
  · rw [leaseQueue_state_jobs]
    exact hcb
  · rw [leaseQueue_state_jobs]
    exact itemsPositive_transfer (fun it' h => cover_leaseQueue h) (jobsShape_refl _) hpos

theorem inv_processQueueItem (now : Nat) (env : ItemEnv) (item : QueueItem) {st : SysState}
    (hq : ∃ it ∈ st.queue, it.job_id = item.job_id) (hInv : Inv st) :
    Inv (processQueueItem now env item st).1 := by
  have hpw := hInv.1
  have hjb := hInv.2.1
  have hib := hInv.2.2.1
  have hpz := hInv.2.2.2.1
  have hcb := hInv.2.2.2.2.1
  have hpos := hInv.2.2.2.2.2
  unfold processQueueItem
  cases hfind : findJob st.jobs item.job_id with
  | none =>
    simp only [failItemAndCount, Inv]
    have hprog : updateJobProgress now item.job_id 0 1 st.jobs = st.jobs := by
      unfold updateJobProgress
      rw [hfind]
    rw [hprog]
    exact ⟨hpw, hjb,
      itemsBound_transfer (fun it' h => cover_failQueueItemInQueue h) hib, hpz, hcb,
      itemsPositive_transfer (fun it' h => cover_failQueueItemInQueue h)
        (jobsShape_refl _) hpos⟩
  | some job =>
    dsimp only
    by_cases hstat0 : job.status ≠ JobStatus.pending
    · rw [if_pos hstat0]
      simp only [Inv]
      exact ⟨hpw, hjb,
        itemsBound_transfer (fun it' h => ⟨it', mem_completeQueueItem h, rfl⟩) hib,
        hpz, hcb,
        itemsPositive_transfer (fun it' h => ⟨it', mem_completeQueueItem h, rfl⟩)
          (jobsShape_refl _) hpos⟩
    · rw [if_neg hstat0]
      have hstat : job.status = JobStatus.pending := not_not.mp hstat0
      by_cases hfr : (!job.force_update && !env.needsUpdate) = true
      · rw [if_pos hfr]
        exact inv_pending_branch now item.job_id hInv hq hfind hstat
          (fun it' h => ⟨it', mem_completeQueueItem h, rfl⟩) 1 0 (by omega) _
      · rw [if_neg hfr]
        cases hfe : env.fetch with
        | rateLimited =>
          exact inv_pending_branch now item.job_id hInv hq hfind hstat
            (fun it' h => cover_failQueueItemInQueue h) 0 1 (by omega) _
        | httpError msg =>
          exact inv_pending_branch now item.job_id hInv hq hfind hstat
            (fun it' h => cover_failQueueItemInQueue h) 0 1 (by omega) _
        | success records =>
          dsimp only
          by_cases hre : records.isEmpty = true
          · rw [if_pos hre]
            exact inv_pending_branch now item.job_id hInv hq hfind hstat
              (fun it' h => ⟨it', mem_completeQueueItem h, rfl⟩) 1 0 (by omega) _
          · rw [if_neg hre]
            cases hstore : storeDividendHistory st.dividendsTable item.ticker_symbol records with
            | error msg =>
              exact inv_pending_branch now item.job_id hInv hq hfind hstat
                (fun it' h => cover_failQueueItemInQueue h) 0 1 (by omega) _
            | ok r =>
              exact inv_pending_branch now item.job_id hInv hq hfind hstat
                (fun it' h => ⟨it', mem_completeQueueItem h, rfl⟩) 1 0 (by omega) _

theorem inv_completeDrainedJob (now jid : Nat) {st : SysState} (hInv : Inv st) :
    Inv (completeDrainedJob now jid st) := by
  have hpw := hInv.1
  have hjb := hInv.2.1
  have hib := hInv.2.2.1
  have hpz := hInv.2.2.2.1
  have hcb := hInv.2.2.2.2.1
  have hpos := hInv.2.2.2.2.2
  unfold completeDrainedJob
  split
  · cases hfind : findJob st.jobs jid with
    | none => exact hInv
    | some job =>
      dsimp only
      refine ⟨?_, ?_, hib, ?_, ?_, ?_⟩
      · exact pairwise_ids_updateJobStatus now jid _ _ hpw
      · exact jobsBound_of_shape (jobsShape_updateJobStatus now jid _ _ st.jobs) hjb
      · refine pendingZero_updateJobStatus_nonpending now jid _ _ ?_ hpz
        split <;> decide
      · exact counters_updateJobStatus_none now jid _ _ rfl rfl hcb
      · exact itemsPositive_transfer (fun it h => ⟨it, h, rfl⟩)
          (jobsShape_updateJobStatus now jid _ _ st.jobs) hpos
  · exact hInv

theorem inv_checkAndCompleteJobs (now : Nat) (jobIds : List Nat) {st : SysState}
    (hInv : Inv st) : Inv (checkAndCompleteJobs now jobIds st) := by
  unfold checkAndCompleteJobs
  generalize jobIds.eraseDups = l
  induction l generalizing st with
  | nil => exact hInv
  | cons a l ih =>
    exact ih (inv_completeDrainedJob now a hInv)

theorem inv_cancelJob (now jid : Nat) {st : SysState} (hInv : Inv st) :
    Inv (cancelJob now jid st).1 := by
  have hpw := hInv.1
  have hjb := hInv.2.1
  have hib := hInv.2.2.1
  have hpz := hInv.2.2.2.1
  have hcb := hInv.2.2.2.2.1
  have hpos := hInv.2.2.2.2.2
  unfold cancelJob
  cases hfind : findJob st.jobs jid with
  | none => exact hInv
  | some job =>
    dsimp only
    by_cases hstat0 : job.status ≠ JobStatus.pending
    · rw [if_pos hstat0]
      exact hInv
    · rw [if_neg hstat0]
      simp only [Inv]
      refine ⟨?_, ?_, ?_, ?_, ?_, ?_⟩
      · exact pairwise_ids_updateJobStatus now jid _ _ hpw
      · exact jobsBound_of_shape (jobsShape_updateJobStatus now jid _ _ st.jobs) hjb
      · exact itemsBound_transfer (fun it' h => ⟨it', (List.mem_filter.mp h).1, rfl⟩) hib
      · exact pendingZero_updateJobStatus_nonpending now jid _ _ (by decide) hpz
      · exact counters_updateJobStatus_none now jid _ _ rfl rfl hcb
      · exact itemsPositive_transfer (fun it' h => ⟨it', (List.mem_filter.mp h).1, rfl⟩)
          (jobsShape_updateJobStatus now jid _ _ st.jobs) hpos

theorem inv_reachable {st : SysState} (h : Reachable st) : Inv st := by
  induction h with
  | init =>
    refine ⟨?_, ?_, ?_, ?_, ?_, ?_⟩ <;> simp [initialState, PendingZero, CountersBounded]
  | createJob st now tickers p f hr hne ih => exact inv_createJobAndEnqueue now tickers p f hne ih
  | lease st now limit wid hr ih => exact inv_lease now limit wid ih
  | processItem st now env item hr hq ih => exact inv_processQueueItem now env item hq ih
  | completeJobs st now jobIds hr ih => exact inv_checkAndCompleteJobs now jobIds ih
  | cancel st now jid hr ih => exact inv_cancelJob now jid ih

/-! ## Retry discipline lemmas (failQueueItem) -/

theorem failQueueItem_eq_none_iff (now : Nat) (err : String) (item : QueueItem) :
    failQueueItem now err item = none ↔ item.max_retries ≤ item.retry_count + 1 := by
  simp only [failQueueItem]
  split
  · rename_i h
    exact iff_of_true rfl (by omega)
  · rename_i h
    exact iff_of_false (by simp) (by omega)

theorem failQueueItem_eq_some (now : Nat) (err : String) (item : QueueItem)
    (h : item.retry_count + 1 < item.max_retries) :
    failQueueItem now err item = some { item with
      retry_count := item.retry_count + 1
      error_message := some err
      scheduled_at := now + 2 ^ item.retry_count * 60000
      locked_at := none
      locked_by := none } := by
  simp only [failQueueItem]
  rw [if_neg (by omega)]

theorem iterFailQueueItem_none_iff (now : Nat) (err : String) (k : Nat) :
    ∀ item : QueueItem, iterFailQueueItem now err (k + 1) item = none ↔
      item.max_retries ≤ item.retry_count + (k + 1) := by
  induction k with
  | zero =>
    intro item
    have hstep : iterFailQueueItem now err 1 item =
        (match failQueueItem now err item with
         | none => none
         | some it => iterFailQueueItem now err 0 it) := rfl
    rw [hstep]
    cases hfail : failQueueItem now err item with
    | none =>
      exact iff_of_true rfl ((failQueueItem_eq_none_iff now err item).mp hfail)
    | some item' =>
      have hlt : ¬ item.max_retries ≤ item.retry_count + 1 := by
        intro hle
        rw [(failQueueItem_eq_none_iff now err item).mpr hle] at hfail
        cases hfail
      exact iff_of_false (by simp [iterFailQueueItem]) hlt
  | succ k ih =>
    intro item
    have hstep : iterFailQueueItem now err (k + 1 + 1) item =
        (match failQueueItem now err item with
         | none => none
         | some it => iterFailQueueItem now err (k + 1) it) := rfl
    rw [hstep]
    cases hfail : failQueueItem now err item with
    | none =>
      have h1 := (failQueueItem_eq_none_iff now err item).mp hfail
      exact iff_of_true rfl (by omega)
    | some item' =>
      have hlt : item.retry_count + 1 < item.max_retries := by
        by_contra hge
        have hdel := (failQueueItem_eq_none_iff now err item).mpr (by omega)
        rw [hdel] at hfail
        cases hfail
      have hfields : item'.retry_count = item.retry_count + 1 ∧
          item'.max_retries = item.max_retries := by
        rw [failQueueItem_eq_some now err item hlt] at hfail
        cases hfail
        exact ⟨rfl, rfl⟩
      rw [ih item', hfields.1, hfields.2]
      constructor <;> (intro h; omega)

/-- C3: `failQueueItem` deletes the item exactly when
`retry_count + 1 ≥ max_retries` (the source condition
`retry_count >= max_retries - 1`), not when `retry_count + 1 > max_retries` as
claimed; otherwise it increments `retry_count`, stores the error, reschedules
at `now + 2^retry_count` minutes and clears the lock.  Consequently a fresh
item is removed by its `max_retries`-th failure: at most `max_retries`
processing attempts (retry counts `0 .. max_retries - 1`), not
`max_retries + 1`. -/
theorem C3_prop (now : Nat) (err : String) (item : QueueItem) :
    (failQueueItem now err item = none ↔ item.max_retries ≤ item.retry_count + 1)
    ∧ (item.retry_count + 1 < item.max_retries →
        failQueueItem now err item = some { item with
          retry_count := item.retry_count + 1
          error_message := some err
          scheduled_at := now + 2 ^ item.retry_count * 60000
          locked_at := none
          locked_by := none })
    ∧ (item.retry_count = 0 → ∀ k, 1 ≤ k →
        (iterFailQueueItem now err k item = none ↔ item.max_retries ≤ k)) := by
  refine ⟨failQueueItem_eq_none_iff now err item, failQueueItem_eq_some now err item, ?_⟩
  intro h0 k hk
  obtain ⟨k', rfl⟩ : ∃ k', k = k' + 1 := ⟨k - 1, by omega⟩
  rw [iterFailQueueItem_none_iff now err k' item, h0]
  omega

/-- C3 witness: a fresh item (`retry_count = 0`, `max_retries = 3`) is
rescheduled with backoff `2^0` minutes on its first failure. -/
theorem C3_witness :
    (0 + 1 < 3) ∧ failQueueItem 5 "err" baseItem = some { baseItem with
      retry_count := 0 + 1
      error_message := some "err"
      scheduled_at := 5 + 2 ^ 0 * 60000
      locked_at := none
      locked_by := none } :=
  ⟨by decide, (C3_prop 5 "err" baseItem).2.1 (by decide)⟩

/-- C3 counterexample: at `retry_count = 2`, `max_retries = 3`, the claimed
condition `retry_count + 1 > max_retries` is false, yet the code deletes the
item (third attempt is the last, not the fourth). -/
theorem C3_counterexample :
    failQueueItem 0 "err" { baseItem with retry_count := 2 } = none
    ∧ ¬ (2 + 1 > 3) := by
  exact ⟨rfl, by decide⟩

/-! ## Rate-budget admission (C4) -/

/-- C4 (amended): the admission check `checkRateLimit` does not reserve: it
admits exactly when the minute boundary was crossed or the stored counter is
under the limit, leaves the counter untouched when admitting inside the
current minute, and on a boundary crossing resets it to 0 (not 1).  The
increment — and the reset-to-1 that counts the call — happen only in the
stored procedure invoked by `recordApiCall` after the call attempt. -/
theorem C4_prop (currentMinute currentHour currentDay : Nat) (row : RateLimitRow) :
    ((checkRateLimit currentMinute row).1 =
      (decide (row.reset_minute < currentMinute)
        || decide (row.calls_this_minute < RATE_LIMIT_PER_MINUTE)))
    ∧ ((checkRateLimit currentMinute row).2 =
        if row.reset_minute < currentMinute then
          { row with calls_this_minute := 0, reset_minute := currentMinute }
        else row)
    ∧ ((incrementRateLimitCounters currentMinute currentHour currentDay row).calls_this_minute =
        if row.reset_minute < currentMinute then 1 else row.calls_this_minute + 1) := by
  refine ⟨?_, ?_, ?_⟩
  · simp only [checkRateLimit, RATE_LIMIT_PER_MINUTE]
    by_cases h1 : row.reset_minute < currentMinute
    · simp [h1]
    · by_cases h2 : 5 ≤ row.calls_this_minute
      · have h3 : ¬ row.calls_this_minute < 5 := by omega
        simp [h1, h2, h3]
      · have h3 : row.calls_this_minute < 5 := by omega
        simp [h1, h2, h3]
  · simp only [checkRateLimit]
    by_cases h1 : row.reset_minute < currentMinute
    · simp [h1]
    · by_cases h2 : RATE_LIMIT_PER_MINUTE ≤ row.calls_this_minute
      · simp [h1, h2]
      · simp [h1, h2]
  · simp only [incrementRateLimitCounters]

/-- C4 counterexample: with the counter at 4 of 5 inside the current minute,
the check admits but the stored counter stays 4 (the claim requires 5); and
on a boundary crossing the counter is reset to 0, not to 1. -/
theorem C4_counterexample :
    checkRateLimit 10 { calls_this_minute := 4, calls_this_hour := 0, calls_today := 0
                        reset_minute := 10, reset_hour := 0, reset_day := 0 }
      = (true, { calls_this_minute := 4, calls_this_hour := 0, calls_today := 0
                 reset_minute := 10, reset_hour := 0, reset_day := 0 })
    ∧ (checkRateLimit 10 { calls_this_minute := 5, calls_this_hour := 0, calls_today := 0
                           reset_minute := 9, reset_hour := 0, reset_day := 0 }).2.calls_this_minute = 0 := by
  exact ⟨rfl, rfl⟩

/-! ## C1: items of `processing` jobs -/

/-- C1 (code bug): a queue item whose owning job is already `processing` is
not leased (`getNextQueueItems` joins on `api_jobs.status = 'pending'`), and
when the worker handles such an item it deletes it via `completeQueueItem`
and skips it with no progress mutation — while the spec, the job state
machine, and the otherwise-dead `if (job.status === 'pending')` check in the
source all expect items of `processing` jobs to be processed.  Evaluated at
the failing input: one due, unlocked item of a `processing` job. -/
theorem C1_prop :
    jobProcessing.status = JobStatus.processing
    ∧ (getNextQueueItems 2000 5 "w" stC1).1 = []
    ∧ (processQueueItem 2000 envPlain baseItem stC1).1.jobs = stC1.jobs
    ∧ (processQueueItem 2000 envPlain baseItem stC1).1.queue = []
    ∧ (processQueueItem 2000 envPlain baseItem stC1).2 = ItemResult.skippedR :=
  ⟨rfl, rfl, rfl, rfl, rfl⟩

/-! ## C2: job progress accounting -/

/-- C2 (amended): over every reachable state, `processed + failed ≤ total`
holds for every job — no sequence of worker outcomes can exceed the total
(the failed-then-retried-then-failed scenario cannot double-count because a
job leaves `pending` before its first counter increment and
`getNextQueueItems` only leases items of `pending` jobs).  The terminal
equality part of the claim is refuted separately. -/
theorem C2_prop {st : SysState} (h : Reachable st) :
    ∀ j ∈ st.jobs, j.processed_tickers + j.failed_tickers ≤ j.total_tickers :=
  (inv_reachable h).2.2.2.2.1

/-- C2 witness: the bound instantiated at the reachable state holding one
freshly created two-ticker job. -/
theorem C2_witness :
    jobC2w.processed_tickers + jobC2w.failed_tickers ≤ jobC2w.total_tickers :=
  C2_prop
    (Reachable.createJob initialState 1000 ["AAA", "BBB"] 0 false Reachable.init
      (by decide))
    jobC2w (by decide)

/-- C2 counterexample: a two-ticker job whose first item is processed and
whose second item is deleted by the skip path (its job is `processing` by
then) drains with `processed + failed = 1 ≠ 2 = total`, and no item was
deleted by cancellation (no cancel step occurs in the trace); the job is
nevertheless stamped `completed`.  This refutes the claimed terminal equality
`processed + failed + cancelled_items = total`. -/
theorem C2_counterexample :
    (findJob stC2final.jobs 0).map
        (fun j => (j.status, j.processed_tickers, j.failed_tickers, j.total_tickers))
      = some (JobStatus.completed, 1, 0, 2)
    ∧ stC2final.queue = [] :=
  ⟨rfl, rfl⟩

/-! ## C10: terminal status of a drained job -/

/-- C10: when the end-of-batch completion check finds a job's queue drained,
it sets the job to `failed` exactly when `failed_tickers > 0` and
`processed_tickers = 0`, to `completed` in every other case (including
`processed = 0 ∧ failed = 0`), and stamps `completed_at := now`. -/
theorem C10_prop (st : SysState) (now jid : Nat) (job : Job)
    (hpw : st.jobs.Pairwise (fun a b => a.id ≠ b.id))
    (hfind : findJob st.jobs jid = some job)
    (hdrained : (st.queue.filter (fun it => decide (it.job_id = jid))).length = 0) :
    findJob (completeDrainedJob now jid st).jobs jid = some { job with
      status := if 0 < job.failed_tickers ∧ job.processed_tickers = 0
                then JobStatus.failed else JobStatus.completed
      completed_at := some now } := by
  obtain ⟨hjmem, hjid⟩ := findJob_mem hfind
  unfold completeDrainedJob
  rw [if_pos hdrained, hfind]
  dsimp only
  by_cases hc : 0 < job.failed_tickers ∧ job.processed_tickers = 0
  · rw [if_pos hc]
    have hmem' := List.mem_map_of_mem
      (statusUpdateRow now jid JobStatus.failed
        ({ processed_tickers := none, failed_tickers := none, completed_at := some now
           error_message := none, started_at := none })) hjmem
    rw [statusUpdateRow_of_eq now jid _ _ job hjid] at hmem'
    have hfind' : findJob (updateJobStatus now jid JobStatus.failed
        ({ processed_tickers := none, failed_tickers := none, completed_at := some now
           error_message := none, started_at := none }) st.jobs) jid
        = some (applyStatusUpdate now JobStatus.failed
            ({ processed_tickers := none, failed_tickers := none, completed_at := some now
               error_message := none, started_at := none }) job) :=
      findJob_of_mem (pairwise_ids_updateJobStatus now jid _ _ hpw) hmem'
        (by rw [applyStatusUpdate_id]; exact hjid)
    rw [hfind']
    rfl
  · rw [if_neg hc]
    have hmem' := List.mem_map_of_mem
      (statusUpdateRow now jid JobStatus.completed
        ({ processed_tickers := none, failed_tickers := none, completed_at := some now
           error_message := none, started_at := none })) hjmem
    rw [statusUpdateRow_of_eq now jid _ _ job hjid] at hmem'
    have hfind' : findJob (updateJobStatus now jid JobStatus.completed
        ({ processed_tickers := none, failed_tickers := none, completed_at := some now
           error_message := none, started_at := none }) st.jobs) jid
        = some (applyStatusUpdate now JobStatus.completed
            ({ processed_tickers := none, failed_tickers := none, completed_at := some now
               error_message := none, started_at := none }) job) :=
      findJob_of_mem (pairwise_ids_updateJobStatus now jid _ _ hpw) hmem'
        (by rw [applyStatusUpdate_id]; exact hjid)
    rw [hfind']
    rfl

/-- C10 witness: a drained job with `processed = 0` and `failed = 0` (all
items deleted by the skip path) is stamped `completed`. -/
theorem C10_witness :
    findJob (completeDrainedJob 4000 0 stC10).jobs 0 = some { jobAllSkipped with
      status := if 0 < jobAllSkipped.failed_tickers ∧ jobAllSkipped.processed_tickers = 0
                then JobStatus.failed else JobStatus.completed
      completed_at := some 4000 } :=
  C10_prop stC10 4000 0 jobAllSkipped (by decide) rfl rfl

/-! ## C5: rate-limited fetch mid-batch -/

/-- C5 (corrected): when the fetch for the current item is denied by the rate
limiter, `fetchPolygonDividends` throws and the worker's generic per-item
catch runs: the item is failed via `failQueueItem` (losing its lock, gaining
a retry) and the owning job's failed counter is incremented — the batch is
not stopped and the item is not spared, contrary to the claim. -/
theorem C5_prop (now : Nat) (env : ItemEnv) (item : QueueItem) {st : SysState} {job : Job}
    (henv : env.fetch = FetchOutcome.rateLimited)
    (hpw : st.jobs.Pairwise (fun a b => a.id ≠ b.id))
    (hfind : findJob st.jobs item.job_id = some job)
    (hpending : job.status = JobStatus.pending)
    (hforce : job.force_update = true) :
    (processQueueItem now env item st).2 = ItemResult.failedR
    ∧ (processQueueItem now env item st).1.queue =
        failQueueItemInQueue now rateLimitErrorMessage item.id st.queue
    ∧ findJob (processQueueItem now env item st).1.jobs item.job_id =
        some { job with
          status := JobStatus.processing
          started_at := some now
          processed_tickers := job.processed_tickers + 0
          failed_tickers := job.failed_tickers + 1 } := by
  obtain ⟨hjmem, hjid⟩ := findJob_mem hfind
  unfold processQueueItem
  rw [hfind]
  dsimp only
  rw [if_neg (by simp [hpending])]
  rw [if_neg (by simp [hforce])]
  rw [henv]
  dsimp only [failItemAndCount]
  refine ⟨rfl, rfl, ?_⟩
  have hpw1 : (updateJobStatus now item.job_id JobStatus.processing noUpdates st.jobs).Pairwise
      (fun a b => a.id ≠ b.id) := pairwise_ids_updateJobStatus now item.job_id _ _ hpw
  have hmem1 := List.mem_map_of_mem
    (statusUpdateRow now item.job_id JobStatus.processing noUpdates) hjmem
  rw [statusUpdateRow_of_eq now item.job_id _ _ job hjid] at hmem1
  have hid1 : (applyStatusUpdate now JobStatus.processing noUpdates job).id = item.job_id := by
    rw [applyStatusUpdate_id]
    exact hjid
  have hfind1 : findJob (updateJobStatus now item.job_id JobStatus.processing noUpdates st.jobs)
      item.job_id = some (applyStatusUpdate now JobStatus.processing noUpdates job) :=
    findJob_of_mem hpw1 hmem1 hid1
  unfold updateJobProgress
  rw [hfind1]
  dsimp only
  have hmem2 := List.mem_map_of_mem
    (statusUpdateRow now item.job_id (applyStatusUpdate now JobStatus.processing noUpdates job).status
      ({ processed_tickers := some ((applyStatusUpdate now JobStatus.processing noUpdates job).processed_tickers + 0)
         failed_tickers := some ((applyStatusUpdate now JobStatus.processing noUpdates job).failed_tickers + 1)
         completed_at := none, error_message := none, started_at := none })) hmem1
  rw [statusUpdateRow_of_eq now item.job_id _ _ _ hid1] at hmem2
  have hfind2 : findJob (updateJobStatus now item.job_id
        (applyStatusUpdate now JobStatus.processing noUpdates job).status
        ({ processed_tickers := some ((applyStatusUpdate now JobStatus.processing noUpdates job).processed_tickers + 0)
           failed_tickers := some ((applyStatusUpdate now JobStatus.processing noUpdates job).failed_tickers + 1)
           completed_at := none, error_message := none, started_at := none })
        (updateJobStatus now item.job_id JobStatus.processing noUpdates st.jobs)) item.job_id
      = some (applyStatusUpdate now
          (applyStatusUpdate now JobStatus.processing noUpdates job).status
          ({ processed_tickers := some ((applyStatusUpdate now JobStatus.processing noUpdates job).processed_tickers + 0)
             failed_tickers := some ((applyStatusUpdate now JobStatus.processing noUpdates job).failed_tickers + 1)
             completed_at := none, error_message := none, started_at := none })
          (applyStatusUpdate now JobStatus.processing noUpdates job)) :=
    findJob_of_mem (pairwise_ids_updateJobStatus now item.job_id _ _ hpw1) hmem2
      (by rw [applyStatusUpdate_id]; exact hid1)
  rw [hfind2]
  rfl

/-- C5 witness: the corrected behaviour at a concrete forced single-item job
whose fetch is rate limited. -/
theorem C5_witness :
    (processQueueItem 2000 envRateLimited itemC5w stC5w).2 = ItemResult.failedR
    ∧ (processQueueItem 2000 envRateLimited itemC5w stC5w).1.queue =
        failQueueItemInQueue 2000 rateLimitErrorMessage itemC5w.id stC5w.queue
    ∧ findJob (processQueueItem 2000 envRateLimited itemC5w stC5w).1.jobs itemC5w.job_id =
        some { jobC5w with
          status := JobStatus.processing
          started_at := some 2000
          processed_tickers := jobC5w.processed_tickers + 0
          failed_tickers := jobC5w.failed_tickers + 1 } :=
  C5_prop 2000 envRateLimited itemC5w rfl (by decide) rfl rfl rfl

/-- C5 counterexample: a two-item batch in which item 1's fetch is rate
limited.  The claim requires: item 1 keeps its lease and is not failed, the
job's failed counter stays 0, and the remaining item is untouched.  The code
instead leaves `failed = 1`, reschedules item 1 with its lock cleared and a
retry recorded, and goes on to handle (here: delete) item 2. -/
theorem C5_counterexample :
    stC5final.jobs.map (fun j => (j.processed_tickers, j.failed_tickers)) = [(0, 1)]
    ∧ stC5final.queue.map (fun it => (it.id, it.retry_count, it.locked_at)) = [(0, 1, none)] :=
  ⟨rfl, rfl⟩

/-! ## C6: fast-path dispatch failure -/

/-- C6 (corrected): with a configured sink, a failed fast-path dispatch falls
back to the standard path (symbols appended to `existingTickers`, a job is
created) and the request is answered 202; but when
`CLOUDFLARE_WORKER_QUEUE_URL` is absent, `sendTickerToQueue` throws before
its try/catch and the handler's catch answers 500 — no fallback. -/
theorem C6_prop (url : String) (hurl : url ≠ "") (newTickers existingTickers : List String)
    (hne : newTickers ≠ []) :
    (updateTickersDispatch { cloudflareWorkerQueueUrl := some url } false
        newTickers existingTickers
      = { httpStatus := 202, standardTickers := existingTickers ++ newTickers
          jobCreated := true, queueUsed := false })
    ∧ (updateTickersDispatch { cloudflareWorkerQueueUrl := none } true
        newTickers existingTickers).httpStatus = 500 := by
  cases newTickers with
  | nil => exact absurd rfl hne
  | cons a as =>
    have happ : (existingTickers ++ a :: as).isEmpty = false := by
      cases existingTickers <;> rfl
    have hsend : sendTickerToQueue { cloudflareWorkerQueueUrl := some url } false
        = Except.ok false := by
      unfold sendTickerToQueue
      dsimp only
      split
      · rename_i h
        exact absurd h hurl
      · rfl
    constructor
    · simp only [updateTickersDispatch]
      rw [hsend]
      simp [happ]
    · rfl

/-- C6 witness: the configured-sink fallback at a concrete input. -/
theorem C6_witness :
    ("https://worker.example" ≠ "") ∧ (["AAPL"] ≠ ([] : List String))
    ∧ (updateTickersDispatch { cloudflareWorkerQueueUrl := some "https://worker.example" }
        false ["AAPL"] []
      = { httpStatus := 202, standardTickers := [] ++ ["AAPL"]
          jobCreated := true, queueUsed := false }) :=
  ⟨by decide, by decide,
    (C6_prop "https://worker.example" (by decide) ["AAPL"] [] (by decide)).1⟩

/-- C6 counterexample: with the optional sink unconfigured and one new
ticker, the handler answers 500, not 202 with fallback as claimed. -/
theorem C6_counterexample :
    updateTickersDispatch { cloudflareWorkerQueueUrl := none } true ["AAPL"] []
      = { httpStatus := 500, standardTickers := [], jobCreated := false
          queueUsed := false } := rfl

/-! ## C8: API-key gate -/

/-- C8 (code bug): the key `tk_demo_key_12345` matches the specified format
`tk_[A-Za-z0-9_]{6,}`, is present in the gate's own key store, and is active
— yet `requireApiKey` answers 401, because `isValidApiKeyFormat` demands
length ≥ 35 and rejects the store's own keys (the README documents this very
key as working). -/
theorem C8_prop :
    specApiKeyFormat "tk_demo_key_12345" = true
    ∧ API_KEYS.lookup "tk_demo_key_12345"
        = some { name := "Demo Key", rateLimit := 100, isActive := true }
    ∧ isValidApiKeyFormat "tk_demo_key_12345" = false
    ∧ requireApiKeyAuth (some "tk_demo_key_12345")
        = GateResponse.unauthorized "Invalid API key format" :=
  ⟨by decide, by decide, by decide, by decide⟩

/-! ## C9: update-tickers input validation -/

/-- C9 (amended): the handler rejects with 400 exactly when the `tickers`
field is missing, not an array, or empty, when filtering leaves no valid
element, or when the number of VALID elements after filtering exceeds 100 —
the 100-element cap is applied to the filtered list, not to the supplied
element count; otherwise processing proceeds on exactly the valid
elements. -/
theorem C9_prop (elems : List ReqElem) :
    (validateUpdateTickersRequest TickersField.missing
      = ValidationOutcome.badRequest "Invalid request. Provide an array of ticker symbols.")
    ∧ (validateUpdateTickersRequest TickersField.notArray
      = ValidationOutcome.badRequest "Invalid request. Provide an array of ticker symbols.")
    ∧ ((∃ ts, validateUpdateTickersRequest (TickersField.arr elems)
          = ValidationOutcome.proceed ts)
        ↔ elems ≠ [] ∧ validTickersOf elems ≠ []
          ∧ (validTickersOf elems).length ≤ 100)
    ∧ (∀ ts, validateUpdateTickersRequest (TickersField.arr elems)
          = ValidationOutcome.proceed ts → ts = validTickersOf elems) := by
  refine ⟨rfl, rfl, ?_, ?_⟩
  · simp only [validateUpdateTickersRequest]
    by_cases h1 : elems.length = 0
    · rw [if_pos h1]
      exact iff_of_false (by rintro ⟨ts, hts⟩; cases hts)
        (fun hcon => hcon.1 (List.length_eq_zero.mp h1))
    · rw [if_neg h1]
      by_cases h2 : (validTickersOf elems).length = 0
      · rw [if_pos h2]
        exact iff_of_false (by rintro ⟨ts, hts⟩; cases hts)
          (fun hcon => hcon.2.1 (List.length_eq_zero.mp h2))
      · rw [if_neg h2]
        by_cases h3 : 100 < (validTickersOf elems).length
        · rw [if_pos h3]
          exact iff_of_false (by rintro ⟨ts, hts⟩; cases hts)
            (fun hcon => absurd hcon.2.2 (by omega))
        · rw [if_neg h3]
          refine iff_of_true ⟨validTickersOf elems, rfl⟩
            ⟨?_, ?_, by omega⟩
          · intro he
            apply h1
            rw [he]
            rfl
          · intro he
            apply h2
            rw [he]
            rfl
  · intro ts hts
    simp only [validateUpdateTickersRequest] at hts
    by_cases h1 : elems.length = 0
    · rw [if_pos h1] at hts
      cases hts
    · rw [if_neg h1] at hts
      by_cases h2 : (validTickersOf elems).length = 0
      · rw [if_pos h2] at hts
        cases hts
      · rw [if_neg h2] at hts
        by_cases h3 : 100 < (validTickersOf elems).length
        · rw [if_pos h3] at hts
          cases hts
        · rw [if_neg h3] at hts
          cases hts
          rfl

/-- C9 witness: a single valid element proceeds with exactly that element. -/
theorem C9_witness :
    validateUpdateTickersRequest (TickersField.arr [ReqElem.str "AAPL"])
      = ValidationOutcome.proceed ["AAPL"]
    ∧ ["AAPL"] = validTickersOf [ReqElem.str "AAPL"] :=
  ⟨by decide, (C9_prop [ReqElem.str "AAPL"]).2.2.2 ["AAPL"] (by decide)⟩

/-- C9 counterexample: a request supplying 101 elements of which one is valid
is accepted and proceeds, while the claim requires a 400 for any request with
more than 100 supplied elements. -/
theorem C9_counterexample :
    elems101.length = 101
    ∧ validateUpdateTickersRequest (TickersField.arr elems101)
      = ValidationOutcome.proceed ["AAPL"] :=
  ⟨by decide, by decide⟩

/-! ## C7: dividend store validation -/

theorem length_filterMap {α γ : Type} (g : α → Option γ) (l : List α) :
    (l.filterMap g).length = l.countP (fun a => (g a).isSome) := by
  induction l with
  | nil => rfl
  | cons a l ih =>
    simp only [List.filterMap_cons, List.countP_cons]
    cases hh : g a with
    | none => simp [hh, ih]
    | some c => simp [hh, ih]

theorem validateDividend_toOption_isSome (t : String) (d : ApiDividend) :
    ((validateDividend t d).toOption).isSome = !dividendInvalid d := by
  unfold validateDividend dividendInvalid
  cases hf : jsFalsyStr d.exDividendDate with
  | true => simp [hf, Except.toOption]
  | false =>
    by_cases h2 : d.amount ≤ 0
    · simp [hf, h2, Except.toOption]
    · simp [hf, h2, Except.toOption]

theorem validateDividend_errOf_isSome (t : String) (d : ApiDividend) :
    (((fun r => match r with
        | Except.error e => some e
        | Except.ok _ => none) (validateDividend t d) : Option String)).isSome
      = dividendInvalid d := by
  unfold validateDividend dividendInvalid
  cases hf : jsFalsyStr d.exDividendDate with
  | true => simp [hf]
  | false =>
    by_cases h2 : d.amount ≤ 0
    · simp [hf, h2]
    · simp [hf, h2]

theorem keysUnique_upsertOne (table : List DividendRow) (r : DividendRow)
    (h : DividendKeysUnique table) : DividendKeysUnique (upsertOneDividend table r) := by
  unfold upsertOneDividend DividendKeysUnique
  split
  · rename_i hany
    rw [List.pairwise_map]
    refine List.Pairwise.imp_of_mem ?_ h
    intro a b ha hb hab
    by_cases hca : a.ticker = r.ticker ∧ a.ex_dividend_date = r.ex_dividend_date
    · by_cases hcb : b.ticker = r.ticker ∧ b.ex_dividend_date = r.ex_dividend_date
      · exfalso
        rcases hab with hab | hab
        · exact hab (hca.1.trans hcb.1.symm)
        · exact hab (hca.2.trans hcb.2.symm)
      · rw [if_pos hca, if_neg hcb]
        rcases hab with hab | hab
        · exact Or.inl (fun hh => hab (hca.1.trans hh))
        · exact Or.inr (fun hh => hab (hca.2.trans hh))
    · by_cases hcb : b.ticker = r.ticker ∧ b.ex_dividend_date = r.ex_dividend_date
      · rw [if_neg hca, if_pos hcb]
        rcases hab with hab | hab
        · exact Or.inl (fun hh => hab (hh.trans hcb.1.symm))
        · exact Or.inr (fun hh => hab (hh.trans hcb.2.symm))
      · rw [if_neg hca, if_neg hcb]
        exact hab
  · rename_i hany
    rw [List.pairwise_append]
    refine ⟨h, List.pairwise_singleton _ _, ?_⟩
    intro a ha b hb
    rw [List.mem_singleton] at hb
    subst hb
    have hfalse : (decide (a.ticker = b.ticker) && decide (a.ex_dividend_date = b.ex_dividend_date)) = false := by
      by_contra hcon
      apply hany
      rw [List.any_eq_true]
      exact ⟨a, ha, by simpa using hcon⟩
    rcases Bool.and_eq_false_iff.mp hfalse with hh | hh
    · exact Or.inl (by simpa using hh)
    · exact Or.inr (by simpa using hh)

theorem keysUnique_upsertRows (records : List DividendRow) :
    ∀ table : List DividendRow, DividendKeysUnique table →
      DividendKeysUnique (upsertDividendRows table records) := by
  induction records with
  | nil => exact fun table h => h
  | cons r rs ih =>
    intro table h
    exact ih (upsertOneDividend table r) (keysUnique_upsertOne table r h)

/-- C7 (corrected): for a non-empty batch, `storeDividendHistory` validates
`amount > 0` and ex-dividend-date presence, silently skips invalid records
and returns a summary whose `errors`/`errorMessages` count exactly the
invalid records and whose `inserted` counts the valid ones, writing the
survivors through the single keyed bulk upsert (preserving natural-key
uniqueness) — but it THROWS when every record of a non-empty batch is
invalid, instead of returning the summary as claimed. -/
theorem C7_prop (table : List DividendRow) (ticker : String) (dividends : List ApiDividend)
    (hne : dividends ≠ []) :
    ((storeDividendHistory table ticker dividends).isOk = false
      ↔ dividends.all dividendInvalid = true)
    ∧ (∀ table' s, storeDividendHistory table ticker dividends = Except.ok (table', s) →
        s.errors = dividends.countP dividendInvalid
        ∧ s.inserted = dividends.countP (fun d => !dividendInvalid d)
        ∧ s.inserted + s.errors = dividends.length
        ∧ s.total = dividends.length
        ∧ s.errorMessages.length = s.errors
        ∧ (DividendKeysUnique table → DividendKeysUnique table')) := by
  have hemp : ¬ (dividends.isEmpty = true) := by
    cases dividends with
    | nil => exact absurd rfl hne
    | cons a l => simp
  have hv : ((dividends.map (validateDividend (jsToUpper ticker))).filterMap Except.toOption).length
      = dividends.countP (fun d => !dividendInvalid d) := by
    rw [List.filterMap_map, length_filterMap]
    refine List.countP_congr ?_
    intro d _
    simp [validateDividend_toOption_isSome]
  have he : ((dividends.map (validateDividend (jsToUpper ticker))).filterMap (fun r =>
      match r with | Except.error e => some e | Except.ok _ => none)).length
      = dividends.countP dividendInvalid := by
    rw [List.filterMap_map, length_filterMap]
    refine List.countP_congr ?_
    intro d _
    simp [validateDividend_errOf_isSome]
  have hsplit : dividends.length = dividends.countP dividendInvalid
      + dividends.countP (fun d => !dividendInvalid d) := by
    rw [List.length_eq_countP_add_countP dividendInvalid]
    congr 1
    refine List.countP_congr ?_
    intro d _
    cases dividendInvalid d <;> simp
  constructor
  · simp only [storeDividendHistory]
    rw [if_neg hemp]
    by_cases hvr : ((dividends.map (validateDividend (jsToUpper ticker))).filterMap
        Except.toOption).isEmpty = true
    · rw [if_pos hvr]
      refine iff_of_true rfl ?_
      rw [List.all_eq_true]
      intro d hd
      have h0 : dividends.countP (fun d => !dividendInvalid d) = 0 := by
        rw [← hv, List.isEmpty_iff.mp hvr]
        rfl
      have := (List.countP_eq_zero.mp h0) d hd
      simpa using this
    · rw [if_neg hvr]
      refine iff_of_false (by intro h; exact Bool.noConfusion h) ?_
      rw [List.all_eq_true]
      intro hall
      apply hvr
      rw [List.isEmpty_iff, ← List.length_eq_zero, hv]
      rw [List.countP_eq_zero]
      intro d hd
      simp [hall d hd]
  · intro table' s hok
    simp only [storeDividendHistory] at hok
    rw [if_neg hemp] at hok
    by_cases hvr : ((dividends.map (validateDividend (jsToUpper ticker))).filterMap
        Except.toOption).isEmpty = true
    · rw [if_pos hvr] at hok
      cases hok
    · rw [if_neg hvr] at hok
      cases hok
      refine ⟨he, hv, ?_, rfl, rfl, ?_⟩
      · dsimp only
        omega
      · intro hk
        exact keysUnique_upsertRows _ table hk

/-- C7 witness: a two-record batch with one valid and one invalid record
returns the summary counting one of each. -/
theorem C7_witness :
    ([divGood, divBad] ≠ ([] : List ApiDividend))
    ∧ summaryC7w.errors = [divGood, divBad].countP dividendInvalid :=
  ⟨by decide,
    ((C7_prop [] "aapl" [divGood, divBad] (by decide)).2 [rowGood] summaryC7w
      (by rfl)).1⟩

/-- C7 counterexample: a non-empty batch whose only record is invalid
(amount 0) makes `storeDividendHistory` throw, contradicting the claim that
a summary is returned even when every record is invalid. -/
theorem C7_counterexample :
    ([divBad] ≠ ([] : List ApiDividend))
    ∧ (storeDividendHistory [] "AAPL" [divBad]).isOk = false :=
  ⟨by decide, by decide⟩

end TickerBackend
